import Mathlib

/-!
Shallow embedding of `pkg/security/probe/probe_bpf.go` (package `probe`):
the userspace dispatcher of a kernel runtime-security probe.  Pure Go
functions become Lean functions; methods that mutate the `Probe` become
state-passing functions returning the new state together with a trace of
observable actions (log lines, cache mutations, kernel-table writes,
consumer callbacks, metrics).  Code that lives outside this file in the
original repository (the per-variant binary decoders, the mount resolver,
the events-stats accessors) is modelled from the spec, as marked on each
definition.
-/

set_option autoImplicit false

namespace probe

/-- Event type tags of the closed variant set dispatched by `handleEvent`
(`FileOpenEventType`, …, `FileRemoveXAttrEventType`); `unknown` stands for
any unrecognized numeric tag (the `default` branch of the switch).
Ordinals are modelled from the spec: the per-type counter array is indexed
by event-type ordinal, ordinal 0 being the unused/unknown slot. -/
inductive EventType where
  | unknown
  | fileOpen
  | fileMkdir
  | fileRmdir
  | fileUnlink
  | fileRename
  | fileChmod
  | fileChown
  | fileUtime
  | fileLink
  | fileMount
  | fileUmount
  | fileSetXAttr
  | fileRemoveXAttr
  deriving DecidableEq

/-- Ordinal of an event type inside the per-type counter array. -/
def EventType.ordinal : EventType → Nat
  | .unknown => 0
  | .fileOpen => 1
  | .fileMkdir => 2
  | .fileRmdir => 3
  | .fileUnlink => 4
  | .fileRename => 5
  | .fileChmod => 6
  | .fileChown => 7
  | .fileUtime => 8
  | .fileLink => 9
  | .fileMount => 10
  | .fileUmount => 11
  | .fileSetXAttr => 12
  | .fileRemoveXAttr => 13

/-- The Go cast `EventType(i)` from a numeric tag/ordinal; unrecognized
numbers map to `unknown` (the switch's `default` branch). -/
def eventTypeOfTag (n : Nat) : EventType :=
  match n with
  | 1 => .fileOpen
  | 2 => .fileMkdir
  | 3 => .fileRmdir
  | 4 => .fileUnlink
  | 5 => .fileRename
  | 6 => .fileChmod
  | 7 => .fileChown
  | 8 => .fileUtime
  | 9 => .fileLink
  | 10 => .fileMount
  | 11 => .fileUmount
  | 12 => .fileSetXAttr
  | 13 => .fileRemoveXAttr
  | _ => .unknown

/-- Model of `EventType.String()`: the tag name used for metrics and the stats map.
Modelled from the spec: the variant names of the closed event set. -/
def EventType.toName : EventType → String
  | .unknown => "unknown"
  | .fileOpen => "open"
  | .fileMkdir => "mkdir"
  | .fileRmdir => "rmdir"
  | .fileUnlink => "unlink"
  | .fileRename => "rename"
  | .fileChmod => "chmod"
  | .fileChown => "chown"
  | .fileUtime => "utimes"
  | .fileLink => "link"
  | .fileMount => "mount"
  | .fileUmount => "umount"
  | .fileSetXAttr => "setxattr"
  | .fileRemoveXAttr => "removexattr"

/-- Number of slots of the per-event-type counter array (ordinal 0 plus the
thirteen file event types). -/
def numEventTypes : Nat := 14

/-- Payload of a plain file event (open, mkdir, …).  Modelled from the
spec: each variant owns a payload defined by the producer's binary layout,
treated as opaque bytes consumed positionally. -/
structure FilePayload where
  raw : List Nat
  deriving DecidableEq

/-- Payload of a mount event; doubles as the `MountEntry` inserted into the
mount resolution cache (the Go code inserts `&event.Mount` itself).
Modelled from the spec: mount id, parent mount id, device info, and the
mount-point / root paths which chain resolution rewrites in place. -/
structure MountEvent where
  mountID : Nat
  parentMountID : Nat
  device : Nat
  mountPointStr : String
  rootStr : String
  deriving DecidableEq

/-- Payload of an umount event: the id of the mount entry to delete. -/
structure UmountEvent where
  mountID : Nat
  deriving DecidableEq

/-- The mutable `Event` container owned by the `Probe` (`p.event`): the
numeric type tag from the common header plus one sub-struct per variant,
filled in place by the variant decoders. -/
structure Event where
  type : Nat
  openE : FilePayload
  mkdirE : FilePayload
  rmdirE : FilePayload
  unlinkE : FilePayload
  renameE : FilePayload
  chmodE : FilePayload
  chownE : FilePayload
  utimesE : FilePayload
  linkE : FilePayload
  mount : MountEvent
  umount : UmountEvent
  setXAttrE : FilePayload
  removeXAttrE : FilePayload
  deriving DecidableEq

/-- The zero `Event` (`var eventZero Event`) copied over the container at
the start of every dispatch. -/
def eventZero : Event :=
  { type := 0
    openE := ⟨[]⟩
    mkdirE := ⟨[]⟩
    rmdirE := ⟨[]⟩
    unlinkE := ⟨[]⟩
    renameE := ⟨[]⟩
    chmodE := ⟨[]⟩
    chownE := ⟨[]⟩
    utimesE := ⟨[]⟩
    linkE := ⟨[]⟩
    mount := ⟨0, 0, 0, "", ""⟩
    umount := ⟨0⟩
    setXAttrE := ⟨[]⟩
    removeXAttrE := ⟨[]⟩ }

/-- The binary codec: `Event.UnmarshalBinary` for the common header
(returning bytes consumed and the numeric tag) and one `UnmarshalBinary`
per variant sub-struct.  Modelled from the spec: these decoders live
outside this file; each reads a contiguous suffix of the buffer and fails
on truncated or malformed input. -/
structure Codec where
  header : List Nat → Except String (Nat × Nat)
  openD : List Nat → Except String FilePayload
  mkdirD : List Nat → Except String FilePayload
  rmdirD : List Nat → Except String FilePayload
  unlinkD : List Nat → Except String FilePayload
  renameD : List Nat → Except String FilePayload
  chmodD : List Nat → Except String FilePayload
  chownD : List Nat → Except String FilePayload
  utimesD : List Nat → Except String FilePayload
  linkD : List Nat → Except String FilePayload
  mountD : List Nat → Except String MountEvent
  umountD : List Nat → Except String UmountEvent
  setXAttrD : List Nat → Except String FilePayload
  removeXAttrD : List Nat → Except String FilePayload

/-- Whether the variant decoder selected by the tag succeeds on the given
payload bytes (an unrecognized tag has no decoder and never succeeds). -/
def decodeOk (c : Codec) (ty : EventType) (bytes : List Nat) : Bool :=
  match ty with
  | .unknown => false
  | .fileOpen => (c.openD bytes).toBool
  | .fileMkdir => (c.mkdirD bytes).toBool
  | .fileRmdir => (c.rmdirD bytes).toBool
  | .fileUnlink => (c.unlinkD bytes).toBool
  | .fileRename => (c.renameD bytes).toBool
  | .fileChmod => (c.chmodD bytes).toBool
  | .fileChown => (c.chownD bytes).toBool
  | .fileUtime => (c.utimesD bytes).toBool
  | .fileLink => (c.linkD bytes).toBool
  | .fileMount => (c.mountD bytes).toBool
  | .fileUmount => (c.umountD bytes).toBool
  | .fileSetXAttr => (c.setXAttrD bytes).toBool
  | .fileRemoveXAttr => (c.removeXAttrD bytes).toBool

/-! ## Mount resolution cache (`Resolvers.MountResolver`)

Modelled from the spec: the mount resolver itself lives outside this file.
`insert` is an unconditional upsert keyed by mount id, `delete` reports a
distinguishable not-found outcome and leaves the cache unchanged, and
chain resolution follows parent mount ids transitively with a fuel bound
to guarantee termination on cycles. -/

/-- The mount resolution cache: mount id keyed entries. -/
abbrev MountCache := List (Nat × MountEvent)

/-- Model of `lookup(id)`: first entry with the given mount id, if any. -/
def lookupMount : MountCache → Nat → Option MountEvent
  | [], _ => none
  | (k, v) :: rest, id => if k = id then some v else lookupMount rest id

/-- Model of `insert(entry)`: upsert keyed by mount id, overwriting any prior entry
with the same id. -/
def insertMount (cache : MountCache) (m : MountEvent) : MountCache :=
  (m.mountID, m) :: (cache : List (Nat × MountEvent)).filter (fun kv => !(kv.1 == m.mountID))

/-- Model of `delete(id)`: removes the entry; a missing id is a distinguishable
error and the cache is returned unchanged through the error path. -/
def deleteMount (cache : MountCache) (id : Nat) : Except String MountCache :=
  match lookupMount cache id with
  | none => .error "mount id not found"
  | some _ => .ok ((cache : List (Nat × MountEvent)).filter (fun kv => !(kv.1 == id)))

/-- Chain resolution: prepend the parent mount's path, following parent
mount ids transitively; the fuel bound prevents divergence on cycles. -/
def chainResolve (cache : MountCache) : Nat → Nat → String → String
  | 0, _, path => path
  | _, 0, path => path
  | fuel + 1, id, path =>
    match lookupMount cache id with
    | none => path
    | some parent => chainResolve cache fuel parent.parentMountID (parent.mountPointStr ++ path)

/-- Model of `MountEvent.ResolveMountPoint(resolvers)`: rewrites the mount-point
path in place using chain resolution over the current cache. -/
def resolveMountPointOf (cache : MountCache) (m : MountEvent) : MountEvent :=
  { m with mountPointStr := chainResolve cache 64 m.parentMountID m.mountPointStr }

/-- Model of `MountEvent.ResolveRoot(resolvers)`: rewrites the root path in place
using chain resolution over the current cache. -/
def resolveRootOf (cache : MountCache) (m : MountEvent) : MountEvent :=
  { m with rootStr := chainResolve cache 64 m.parentMountID m.rootStr }

/-! ## Events stats (`EventsStats`)

Modelled from the spec: an array of counters indexed by event-type ordinal
plus one lost-event counter, with non-destructive reads and destructive
read-and-reset reads. -/

/-- Per-event-type counters (slot 0 is the unused/unknown ordinal) plus the
lost-event counter. -/
structure EventsStats where
  perEventType : List Int
  lost : Int
  deriving DecidableEq

/-- Model of `CountEventType(eventType, n)`: adds `n` to the counter at the event
type's ordinal. -/
def countEventType (s : EventsStats) (ty : EventType) (n : Int) : EventsStats :=
  { s with perEventType :=
      s.perEventType.set ty.ordinal (s.perEventType.getD ty.ordinal 0 + n) }

/-- Model of `CountLost(n)`: adds `n` to the lost-event counter. -/
def countLost (s : EventsStats) (n : Int) : EventsStats :=
  { s with lost := s.lost + n }

/-- Model of `GetEventCount(eventType)`: non-destructive read of one counter. -/
def getEventCount (s : EventsStats) (ty : EventType) : Int :=
  s.perEventType.getD ty.ordinal 0

/-- Model of `GetAndResetEventCount(eventType)`: reads the counter then zeroes it. -/
def getAndResetEventCount (s : EventsStats) (ty : EventType) : Int × EventsStats :=
  (s.perEventType.getD ty.ordinal 0,
    { s with perEventType := s.perEventType.set ty.ordinal 0 })

/-- Model of `GetLost`: non-destructive read of the lost counter. -/
def getLost (s : EventsStats) : Int := s.lost

/-- Model of `GetAndResetLost`: reads the lost counter then zeroes it. -/
def getAndResetLost (s : EventsStats) : Int × EventsStats :=
  (s.lost, { s with lost := 0 })

/-! ## Probe state and observable actions -/

/-- Coarse per-event-type policy mode of a `FilterPolicy`. -/
inductive PolicyMode where
  | noFilter
  | monitor
  | accept
  | deny
  deriving DecidableEq

/-- Observable actions of the probe: log lines, resolver calls, cache
mutations, kernel-table writes, consumer callbacks and metric emissions. -/
inductive Action where
  | logError (msg : String)
  | logWarn (msg : String)
  | logInfo (msg : String)
  | resolveMountPoint (id : Nat)
  | resolveRoot (id : Nat)
  | insertedMount (m : MountEvent)
  | consumerEvent (e : Event)
  | tablePut (table : String) (key : Nat) (mode : PolicyMode) (flags : Nat)
  | metricCount (name : String) (value : Int) (tags : List String)
  | approverCall (eventType : String)
  | registerSelectors
  | syscallStatsSent
  deriving DecidableEq

/-- Whether an action is a kernel policy-table write. -/
def Action.isTablePut : Action → Bool
  | .tablePut _ _ _ _ => true
  | _ => false

/-- Whether an action is an invocation of the consumer callback. -/
def Action.isConsumerEvent : Action → Bool
  | .consumerEvent _ => true
  | _ => false

/-- Whether an action is an insertion into the mount cache. -/
def Action.isInsertedMount : Action → Bool
  | .insertedMount _ => true
  | _ => false

/-- Whether an action is an error log line. -/
def Action.isLogError : Action → Bool
  | .logError _ => true
  | _ => false

/-- Whether an action is an invocation of a registered approver function. -/
def Action.isApproverCall : Action → Bool
  | .approverCall _ => true
  | _ => false

/-- The mutable state of the `Probe` that `handleEvent` touches: the mount
resolution cache, the stats aggregator, the single shared `Event`
container, and whether an event handler is registered. -/
structure ProbeState where
  mountCache : MountCache
  eventsStats : EventsStats
  event : Event
  handlerSet : Bool
  deriving DecidableEq

/-! ## Dispatcher (`Probe.handleEvent` and friends) -/

/-- Model of `Probe.zeroEvent`: copies `eventZero` over the shared container at the
start of every dispatch (the Go code also re-attaches the resolver
back-pointer, which needs no model here since the resolvers live in
`ProbeState`). -/
def zeroEvent (p : ProbeState) : ProbeState :=
  { p with event := eventZero }

/-- Model of `Probe.DispatchEvent`: hands the decoded event to the registered
handler; a nil handler means no callback runs. -/
def DispatchEvent (p : ProbeState) (e : Event) : List Action :=
  if p.handlerSet then [.consumerEvent e] else []

/-- Tail of every successful switch case: `p.eventsStats.CountEventType(
eventType, 1)` followed by `p.DispatchEvent(event)`. -/
def finishDispatch (p : ProbeState) (ty : EventType) (acts : List Action) :
    ProbeState × List Action :=
  let p := { p with eventsStats := countEventType p.eventsStats ty 1 }
  (p, acts ++ DispatchEvent p p.event)

/-- The `switch eventType` body of `Probe.handleEvent`: one variant decoder
per recognized tag; the mount case resolves the mount point and the root
and then inserts the resolved entry into the cache; the umount case
deletes by id, logging (not aborting) on a missing id; the default case
logs the unsupported tag and returns before any stats or dispatch. -/
def handleVariant (c : Codec) (ty : EventType) (bytes : List Nat) (p : ProbeState) :
    ProbeState × List Action :=
  match ty with
  | .fileOpen =>
    match c.openD bytes with
    | .error e => (p, [.logError ("failed to decode open event: " ++ e)])
    | .ok pl => finishDispatch { p with event := { p.event with openE := pl } } .fileOpen []
  | .fileMkdir =>
    match c.mkdirD bytes with
    | .error e => (p, [.logError ("failed to decode mkdir event: " ++ e)])
    | .ok pl => finishDispatch { p with event := { p.event with mkdirE := pl } } .fileMkdir []
  | .fileRmdir =>
    match c.rmdirD bytes with
    | .error e => (p, [.logError ("failed to decode rmdir event: " ++ e)])
    | .ok pl => finishDispatch { p with event := { p.event with rmdirE := pl } } .fileRmdir []
  | .fileUnlink =>
    match c.unlinkD bytes with
    | .error e => (p, [.logError ("failed to decode unlink event: " ++ e)])
    | .ok pl => finishDispatch { p with event := { p.event with unlinkE := pl } } .fileUnlink []
  | .fileRename =>
    match c.renameD bytes with
    | .error e => (p, [.logError ("failed to decode rename event: " ++ e)])
    | .ok pl => finishDispatch { p with event := { p.event with renameE := pl } } .fileRename []
  | .fileChmod =>
    match c.chmodD bytes with
    | .error e => (p, [.logError ("failed to decode chmod event: " ++ e)])
    | .ok pl => finishDispatch { p with event := { p.event with chmodE := pl } } .fileChmod []
  | .fileChown =>
    match c.chownD bytes with
    | .error e => (p, [.logError ("failed to decode chown event: " ++ e)])
    | .ok pl => finishDispatch { p with event := { p.event with chownE := pl } } .fileChown []
  | .fileUtime =>
    match c.utimesD bytes with
    | .error e => (p, [.logError ("failed to decode utime event: " ++ e)])
    | .ok pl => finishDispatch { p with event := { p.event with utimesE := pl } } .fileUtime []
  | .fileLink =>
    match c.linkD bytes with
    | .error e => (p, [.logError ("failed to decode link event: " ++ e)])
    | .ok pl => finishDispatch { p with event := { p.event with linkE := pl } } .fileLink []
  | .fileMount =>
    match c.mountD bytes with
    | .error e => (p, [.logError ("failed to decode mount event: " ++ e)])
    | .ok m =>
      let m1 := resolveMountPointOf p.mountCache m
      let m2 := resolveRootOf p.mountCache m1
      let p := { p with event := { p.event with mount := m2 },
                        mountCache := insertMount p.mountCache m2 }
      finishDispatch p .fileMount
        [.resolveMountPoint m.mountID, .resolveRoot m.mountID, .insertedMount m2]
  | .fileUmount =>
    match c.umountD bytes with
    | .error e => (p, [.logError ("failed to decode umount event: " ++ e)])
    | .ok u =>
      let p := { p with event := { p.event with umount := u } }
      match deleteMount p.mountCache u.mountID with
      | .error e =>
        finishDispatch p .fileUmount
          [.logError ("failed to delete mount point from cache: " ++ e)]
      | .ok cache => finishDispatch { p with mountCache := cache } .fileUmount []
  | .fileSetXAttr =>
    match c.setXAttrD bytes with
    | .error e => (p, [.logError ("failed to decode setxattr event: " ++ e)])
    | .ok pl => finishDispatch { p with event := { p.event with setXAttrE := pl } } .fileSetXAttr []
  | .fileRemoveXAttr =>
    match c.removeXAttrD bytes with
    | .error e => (p, [.logError ("failed to decode removexattr event: " ++ e)])
    | .ok pl =>
      finishDispatch { p with event := { p.event with removeXAttrE := pl } } .fileRemoveXAttr []
  | .unknown => (p, [.logError "unsupported event type"])

/-- Model of `Probe.handleEvent(CPU, data, …)`: zeroes the shared container, decodes
the common header (any header error ends the dispatch with only a log
line), records the numeric tag in the container, then runs the per-variant
switch on the bytes after the header.  The CPU index is not used. -/
def handleEvent (c : Codec) (_cpu : Nat) (data : List Nat) (p : ProbeState) :
    ProbeState × List Action :=
  let p := zeroEvent p
  match c.header data with
  | .error e => (p, [.logError ("failed to decode event: " ++ e)])
  | .ok (read, tag) =>
    let p := { p with event := { p.event with type := tag } }
    handleVariant c (eventTypeOfTag tag) (data.drop read) p

/-- Model of `Probe.handleLostEvents(CPU, count, …)`: logs and counts lost buffers;
never touches the per-type counters. -/
def handleLostEvents (count : Nat) (s : EventsStats) : EventsStats × List Action :=
  (countLost s (Int.ofNat count), [.logWarn "lost events"])

/-! ## Stats export (`Probe.SendStats`, `Probe.GetStats`) -/

/-- Model of `MetricPrefix`: the fixed name root of the exported metrics. -/
def metricRoot : String := "datadog.runtime_security"

/-- The `for i := range p.eventsStats.PerEventType` loop of `SendStats`:
skips ordinal 0, destructively reads every other counter, and emits a
metric only when the read value is strictly positive. -/
def sendEventsLoop (s : EventsStats) : List Nat → EventsStats × List Action
  | [] => (s, [])
  | i :: rest =>
    if i = 0 then sendEventsLoop s rest
    else
      let ty := eventTypeOfTag i
      let read := getAndResetEventCount s ty
      let r := sendEventsLoop read.2 rest
      if read.1 > 0 then
        (r.1, .metricCount (metricRoot ++ ".events.received") read.1
            ["event_type:" ++ ty.toName] :: r.2)
      else r

/-- Model of `Probe.SendStats`: forwards syscall-monitor stats when that monitor is
present, always emits the destructively read lost count, then walks the
per-type counters emitting only the strictly positive ones. -/
def SendStats (syscallMonitorPresent : Bool) (s : EventsStats) :
    EventsStats × List Action :=
  let monActs : List Action := if syscallMonitorPresent then [.syscallStatsSent] else []
  let lostRead := getAndResetLost s
  let lostAct := Action.metricCount (metricRoot ++ ".events.lost") lostRead.1 []
  let r := sendEventsLoop lostRead.2 (List.range lostRead.2.perEventType.length)
  (r.1, monActs ++ lostAct :: r.2)

/-- The non-destructive stats snapshot returned by `Probe.GetStats`
(the opaque syscall sub-map is outside this model). -/
structure StatsSnapshot where
  lost : Int
  perEventTypeOut : List (String × Int)
  deriving DecidableEq

/-- The `for i := range p.eventsStats.PerEventType` loop of `GetStats`:
skips ordinal 0 and reads every other counter non-destructively. -/
def getStatsLoop (s : EventsStats) : List Nat → List (String × Int)
  | [] => []
  | i :: rest =>
    if i = 0 then getStatsLoop s rest
    else ((eventTypeOfTag i).toName, getEventCount s (eventTypeOfTag i)) :: getStatsLoop s rest

/-- Model of `Probe.GetStats`: non-destructive snapshot of the lost counter and the
per-type counters with ordinal at least 1. -/
def GetStats (s : EventsStats) : StatsSnapshot :=
  { lost := getLost s
    perEventTypeOut := getStatsLoop s (List.range s.perEventType.length) }

/-! ## Discarder engine (`Probe.OnNewDiscarder`) -/

/-- A discarder: a field identifier paired with the observed value (the Go
`interface\x7b\x7d` value is modelled as its string rendering, per the
spec's note that the value space is a closed set of concrete kinds). -/
structure Discarder where
  field : String
  value : String
  deriving DecidableEq

/-- A registered discarder function (`onDiscarderFnc`): receives the event
and the discarder; its kernel-side effect is opaque to the engine, only
its success or failure matters here.  The rule-set and probe arguments of
the Go signature carry no information the engine inspects. -/
abbrev onDiscarderFnc := Event → Discarder → Except String Unit

/-- The registry loop of `OnNewDiscarder`: for each registered function in
order, re-reads the field value (a failure there stops the loop), builds
the discarder and invokes the function; the first function error stops the
loop and is returned.  The second component counts invoked functions. -/
def runDiscarderFncs (getFieldValue : String → Except String String)
    (event : Event) (field : String) :
    List onDiscarderFnc → Except String Unit × Nat
  | [] => (.ok (), 0)
  | fnc :: rest =>
    match getFieldValue field with
    | .error e => (.error e, 0)
    | .ok value =>
      match fnc event { field := field, value := value } with
      | .error e => (.error e, 1)
      | .ok _ =>
        let r := runDiscarderFncs getFieldValue event field rest
        (r.1, r.2 + 1)

/-- Model of `Probe.OnNewDiscarder`: a guaranteed no-op when discarders are
disabled; otherwise resolves the event type of the field (modelled from
the spec as a fallible accessor, like the field-value accessor) and runs
the registered functions for that type in registration order. -/
def OnNewDiscarder (enableDiscarders : Bool)
    (getFieldEventType : String → Except String EventType)
    (getFieldValue : String → Except String String)
    (onDiscardersFncs : EventType → List onDiscarderFnc)
    (event : Event) (field : String) : Except String Unit × Nat :=
  if enableDiscarders then
    match getFieldEventType field with
    | .error e => (.error e, 0)
    | .ok ty => runDiscarderFncs getFieldValue event field (onDiscardersFncs ty)
  else (.ok (), 0)

/-! ## Probe initialisation (`Probe.Init`) -/

/-- The configuration fields `probe_bpf.go` reads. -/
structure Config where
  enableKernelFilters : Bool
  enableDiscarders : Bool
  syscallMonitor : Bool
  deriving DecidableEq

/-- The discarder-loading loop of `Init`: appends every package-level
discarder function to the per-type registry of the probe. -/
def loadDiscarders (reg : EventType → List onDiscarderFnc) :
    List (EventType × onDiscarderFnc) → EventType → List onDiscarderFnc
  | [] => reg
  | (ty, fnc) :: rest =>
    loadDiscarders (fun t => if t = ty then reg t ++ [fnc] else reg t) rest

/-- Model of `Probe.Init`: when kernel filters are disabled it only logs a warning
that the in-kernel policy is forced to pass; it then installs default
manager options, registers the syscall-monitor probe selectors when that
monitor is configured, and loads the package-level discarder functions
into the probe's registry.  No kernel policy table is written here. -/
def Init (cfg : Config) (allDiscarderFncs : List (EventType × onDiscarderFnc))
    (reg : EventType → List onDiscarderFnc) :
    (EventType → List onDiscarderFnc) × List Action :=
  let warnActs : List Action :=
    if cfg.enableKernelFilters then []
    else [.logWarn "Forcing in-kernel filter policy to pass: filtering not enabled"]
  let selActs : List Action := if cfg.syscallMonitor then [.registerSelectors] else []
  (loadDiscarders reg allDiscarderFncs, warnActs ++ selActs)

/-! ## Policy applier (`Probe.Map`, `Probe.ApplyFilterPolicy`) -/

/-- Model of `Probe.Map(name)`: nil when the manager is nil or the manager does not
resolve the name to a live table (the manager internals are modelled from
the spec as the set of live kernel-resident table names). -/
def Map (manager : Option (List String)) (name : String) : Option String :=
  match manager with
  | none => none
  | some tables => if name ∈ tables then some name else none

/-- Model of `ebpf.ZeroUint32MapItem`: the fixed sentinel key of every single-slot
policy table. -/
def zeroUint32MapItem : Nat := 0

/-- Model of `Probe.ApplyFilterPolicy`: logs the intent, resolves the table by name
(a missing table is an explicit error and nothing is written), then writes
the `FilterPolicy\x7bMode, Flags\x7d` record at the fixed sentinel key. -/
def ApplyFilterPolicy (manager : Option (List String)) (eventType : String)
    (tableName : String) (mode : PolicyMode) (flags : Nat) :
    Except String Unit × List Action :=
  let info := Action.logInfo ("Setting in-kernel filter policy for " ++ eventType)
  match Map manager tableName with
  | none => (.error ("unable to find policy table " ++ tableName), [info])
  | some _ => (.ok (), [info, .tablePut tableName zeroUint32MapItem mode flags])

/-! ## Approver engine (`Probe.ApplyApprovers`) -/

/-- The opaque rule-derived approver descriptions handed through to the
registered approver function. -/
abbrev Approvers := List (String × Nat)

/-- A registered approver function (`onApproversFnc`); its kernel-side
effect is opaque to the engine, only its success or failure matters. -/
abbrev onApproversFnc := Approvers → Except String Unit

/-- Model of `Probe.ApplyApprovers`: success with no effect when no function is
registered for the event type; otherwise invokes the function once and, on
failure, logs with context and returns that same error. -/
def ApplyApprovers (allApproversFncs : String → Option onApproversFnc)
    (eventType : String) (approvers : Approvers) :
    Except String Unit × List Action :=
  match allApproversFncs eventType with
  | none => (.ok (), [])
  | some fnc =>
    match fnc approvers with
    | .error e =>
      (.error e, [.approverCall eventType,
        .logError ("Error while adding approvers fallback in-kernel policy for "
          ++ eventType ++ ": " ++ e)])
    | .ok _ => (.ok (), [.approverCall eventType])

/-! ## Concrete fixtures

A small executable codec and probe state used to evaluate the embedded
functions on closed inputs: the first byte of a buffer is the event-type
tag, and every variant decoder consumes the remaining bytes (the mount and
umount decoders require enough bytes for their fields). -/

/-- A concrete codec: one-byte header carrying the tag, simple positional
variant decoders that fail on truncated payloads. -/
def demoCodec : Codec where
  header := fun data =>
    match data with
    | [] => .error "empty buffer"
    | t :: _ => .ok (1, t)
  openD := fun bytes => .ok ⟨bytes⟩
  mkdirD := fun bytes => .ok ⟨bytes⟩
  rmdirD := fun bytes => .ok ⟨bytes⟩
  unlinkD := fun bytes => .ok ⟨bytes⟩
  renameD := fun bytes => .ok ⟨bytes⟩
  chmodD := fun bytes => .ok ⟨bytes⟩
  chownD := fun bytes => .ok ⟨bytes⟩
  utimesD := fun bytes => .ok ⟨bytes⟩
  linkD := fun bytes => .ok ⟨bytes⟩
  mountD := fun bytes =>
    match bytes with
    | id :: parent :: dev :: _ => .ok ⟨id, parent, dev, "/demo", "/"⟩
    | _ => .error "truncated mount payload"
  umountD := fun bytes =>
    match bytes with
    | id :: _ => .ok ⟨id⟩
    | _ => .error "truncated umount payload"
  setXAttrD := fun bytes => .ok ⟨bytes⟩
  removeXAttrD := fun bytes => .ok ⟨bytes⟩

/-- Freshly initialised stats: one zero counter per ordinal, zero lost. -/
def statsZero : EventsStats :=
  { perEventType := List.replicate numEventTypes 0, lost := 0 }

/-- A concrete probe state with an empty mount cache, fresh stats, the zero
event container and a registered handler. -/
def demoState : ProbeState :=
  { mountCache := []
    eventsStats := statsZero
    event := eventZero
    handlerSet := true }

/-- A concrete configuration with kernel filters disabled. -/
def cfgNoFilters : Config :=
  { enableKernelFilters := false, enableDiscarders := true, syscallMonitor := false }

/-- An empty per-type discarder registry. -/
def emptyDiscarderReg : EventType → List onDiscarderFnc := fun _ => []

/-- Concrete stats with a nonzero ordinal-0 slot, a mix of zero and
positive per-type counters, and a nonzero lost count. -/
def statsDemo : EventsStats :=
  { perEventType := [5, 2, 0, 7, 0, 0, 0, 0, 0, 0, 0, 0, 0, 1], lost := 3 }

/-- A discarder function that always fails. -/
def demoDiscFail : onDiscarderFnc := fun _ _ => .error "discarder push failed"

/-- A discarder function that always succeeds. -/
def demoDiscOk : onDiscarderFnc := fun _ _ => .ok ()

/-- A field-to-event-type accessor that always resolves to `open`. -/
def demoGetOpenType : String → Except String EventType := fun _ => .ok .fileOpen

/-- A field-value accessor that always resolves to a fixed path value. -/
def demoGetValue : String → Except String String := fun _ => .ok "/etc/passwd"

/-- A discarder registry with a failing function registered before a
succeeding one, for every event type. -/
def demoDiscReg : EventType → List onDiscarderFnc := fun _ => [demoDiscFail, demoDiscOk]

/-- An approver function that always fails. -/
def demoApproverFail : onApproversFnc := fun _ => .error "table write failed"

/-! ## Theorems -/

/-- C9: `DispatchEvent` on a probe with no registered handler is a safe
no-op (it performs no action at all), and it invokes the handler exactly
once, with the given event, whenever one is registered. -/
theorem DispatchEvent_handler_contract (p : ProbeState) (e : Event) :
    (p.handlerSet = false → DispatchEvent p e = []) ∧
    (p.handlerSet = true → DispatchEvent p e = [.consumerEvent e]) ∧
    ((DispatchEvent p e).filter Action.isConsumerEvent).length =
      (if p.handlerSet then 1 else 0) := by
  cases h : p.handlerSet <;> simp [DispatchEvent, h, Action.isConsumerEvent]

theorem DispatchEvent_handler_contract_witness :
    DispatchEvent demoState eventZero = [.consumerEvent eventZero] ∧
    DispatchEvent { demoState with handlerSet := false } eventZero = [] :=
  ⟨(DispatchEvent_handler_contract demoState eventZero).2.1 rfl,
   (DispatchEvent_handler_contract { demoState with handlerSet := false } eventZero).1 rfl⟩

/-- C7: `ApplyFilterPolicy` returns an explicit table-not-found error and
performs no table write when the named table does not resolve; when it
resolves, the call succeeds and the only table write is the policy record
at the fixed sentinel key of the named table. -/
theorem ApplyFilterPolicy_table_contract (manager : Option (List String))
    (eventType tableName : String) (mode : PolicyMode) (flags : Nat) :
    (Map manager tableName = none →
      (ApplyFilterPolicy manager eventType tableName mode flags).1 =
        .error ("unable to find policy table " ++ tableName) ∧
      (ApplyFilterPolicy manager eventType tableName mode flags).2.filter
        Action.isTablePut = []) ∧
    (∀ t, Map manager tableName = some t →
      (ApplyFilterPolicy manager eventType tableName mode flags).1 = .ok () ∧
      (ApplyFilterPolicy manager eventType tableName mode flags).2.filter
        Action.isTablePut = [.tablePut tableName zeroUint32MapItem mode flags]) := by
  constructor
  · intro h
    simp [ApplyFilterPolicy, h, Action.isTablePut]
  · intro t h
    simp [ApplyFilterPolicy, h, Action.isTablePut]

theorem ApplyFilterPolicy_table_contract_witness :
    (ApplyFilterPolicy none "open" "filter_policy" .accept 0).1 =
      .error ("unable to find policy table " ++ "filter_policy") ∧
    (ApplyFilterPolicy (some ["filter_policy"]) "open" "filter_policy" .accept 0).2.filter
      Action.isTablePut = [.tablePut "filter_policy" zeroUint32MapItem .accept 0] :=
  ⟨((ApplyFilterPolicy_table_contract none "open" "filter_policy" .accept 0).1 rfl).1,
   ((ApplyFilterPolicy_table_contract (some ["filter_policy"]) "open" "filter_policy"
      .accept 0).2 "filter_policy" (by decide)).2⟩

/-- C6: `ApplyApprovers` returns success with no effect when no approver
function is registered for the event type; when one is registered it is
invoked exactly once, and a failing invocation is logged and its error
returned unchanged to the caller. -/
theorem ApplyApprovers_registry_contract (reg : String → Option onApproversFnc)
    (eventType : String) (approvers : Approvers) :
    (reg eventType = none →
      ApplyApprovers reg eventType approvers = (.ok (), [])) ∧
    (∀ fnc, reg eventType = some fnc →
      ((ApplyApprovers reg eventType approvers).2.filter Action.isApproverCall).length = 1 ∧
      (∀ e, fnc approvers = .error e →
        (ApplyApprovers reg eventType approvers).1 = .error e ∧
        ((ApplyApprovers reg eventType approvers).2.filter Action.isLogError).length = 1) ∧
      (fnc approvers = .ok () →
        (ApplyApprovers reg eventType approvers).1 = .ok () ∧
        (ApplyApprovers reg eventType approvers).2.filter Action.isLogError = [])) := by
  constructor
  · intro h
    simp [ApplyApprovers, h]
  · intro fnc h
    refine ⟨?_, ?_, ?_⟩
    · cases hf : fnc approvers <;>
        simp [ApplyApprovers, h, hf, Action.isApproverCall, Action.isLogError]
    · intro e hf
      simp [ApplyApprovers, h, hf, Action.isApproverCall, Action.isLogError]
    · intro hf
      simp [ApplyApprovers, h, hf, Action.isApproverCall, Action.isLogError]

theorem ApplyApprovers_registry_contract_witness :
    ApplyApprovers (fun _ => none) "rename" [] = (.ok (), []) ∧
    (ApplyApprovers (fun _ => some demoApproverFail) "open" []).1 =
      .error "table write failed" ∧
    ((ApplyApprovers (fun _ => some demoApproverFail) "open" []).2.filter
      Action.isApproverCall).length = 1 :=
  ⟨(ApplyApprovers_registry_contract (fun _ => none) "rename" []).1 rfl,
   (((ApplyApprovers_registry_contract (fun _ => some demoApproverFail) "open" []).2
      demoApproverFail rfl).2.1 "table write failed" rfl).1,
   ((ApplyApprovers_registry_contract (fun _ => some demoApproverFail) "open" []).2
      demoApproverFail rfl).1⟩

/-- C5 counterexample: with kernel filters disabled, `Init` writes no
`FilterPolicy` record at all — its whole observable effect is the single
warning log line — so the probe does not explicitly write a
"pass everything" policy; the pass default arises by omission. -/
theorem Init_no_pass_policy_write_counterexample :
    (Init cfgNoFilters [] emptyDiscarderReg).2.filter Action.isTablePut = [] ∧
    (Init cfgNoFilters [] emptyDiscarderReg).2 =
      [.logWarn "Forcing in-kernel filter policy to pass: filtering not enabled"] :=
  ⟨rfl, rfl⟩

/-- C5 (amended): when the configuration disables kernel-side filtering,
`Init` only logs a warning that the in-kernel filter policy is forced to
`pass` (plus, when the syscall monitor is configured, the selector
registration); it performs no policy-table write, so the effective
"pass everything" policy arises by omission, not by an explicit write. -/
theorem Init_filters_disabled_only_warns (cfg : Config)
    (all : List (EventType × onDiscarderFnc)) (reg : EventType → List onDiscarderFnc)
    (h : cfg.enableKernelFilters = false) :
    (Init cfg all reg).2 =
      .logWarn "Forcing in-kernel filter policy to pass: filtering not enabled"
        :: (if cfg.syscallMonitor then [.registerSelectors] else []) ∧
    (Init cfg all reg).2.filter Action.isTablePut = [] := by
  cases hm : cfg.syscallMonitor <;> simp [Init, h, hm, Action.isTablePut]

theorem Init_filters_disabled_only_warns_witness :
    cfgNoFilters.enableKernelFilters = false ∧
    (Init cfgNoFilters [] emptyDiscarderReg).2.filter Action.isTablePut = [] :=
  ⟨rfl, (Init_filters_disabled_only_warns cfgNoFilters [] emptyDiscarderReg rfl).2⟩

/-- C8 counterexample: two callbacks on different CPUs operate on the very
same single `Event` container — the one stored on the probe — rather than
one container per CPU: the whole dispatch, including the final container
contents, is identical for CPU 0 and CPU 1, and the shared container was
genuinely mutated by the dispatch. -/
theorem handleEvent_single_shared_container_counterexample :
    handleEvent demoCodec 0 [1, 42] demoState = handleEvent demoCodec 1 [1, 42] demoState ∧
    (handleEvent demoCodec 0 [1, 42] demoState).1.event ≠ demoState.event :=
  ⟨rfl, by decide⟩

/-- C8 (amended): the dispatcher keeps exactly one mutable `Event`
container on the probe, shared by all per-CPU callbacks (and zeroed at the
start of every dispatch): `handleEvent` is entirely independent of the CPU
index, so there is no per-CPU decode context in this code. -/
theorem handleEvent_cpu_independent (c : Codec) (cpu1 cpu2 : Nat) (data : List Nat)
    (p : ProbeState) : handleEvent c cpu1 data p = handleEvent c cpu2 data p := rfl

/-- The registry loop of `OnNewDiscarder` invokes the functions in list
order and stops at the first error, which it returns: with every function
before `f` succeeding on the discarder and `f` failing, exactly the
functions up to and including `f` are invoked and `f`'s error is the
result. -/
theorem runDiscarderFncs_first_error (getFieldValue : String → Except String String)
    (event : Event) (field v : String) (hv : getFieldValue field = .ok v)
    (pre : List onDiscarderFnc) (f : onDiscarderFnc) (rest : List onDiscarderFnc)
    (e : String)
    (hpre : ∀ g ∈ pre, g event { field := field, value := v } = .ok ())
    (hf : f event { field := field, value := v } = .error e) :
    runDiscarderFncs getFieldValue event field (pre ++ f :: rest) =
      (.error e, pre.length + 1) := by
  induction pre with
  | nil => simp [runDiscarderFncs, hv, hf]
  | cons g pre ih =>
    have hg := hpre g (List.mem_cons_self g pre)
    have ih' := ih (fun x hx => hpre x (List.mem_cons_of_mem g hx))
    simp [runDiscarderFncs, hv, hg, ih']

/-- C3: with discarders enabled, `OnNewDiscarder` invokes the registered
functions for the event's type in registration order; the first function
returning an error aborts the remaining invocations (the invocation count
stops at that function) and that error is returned to the caller.  In
particular, with two registered functions whose first fails, the count is
one — the second is never invoked — and the first function's error is
returned. -/
theorem OnNewDiscarder_order_and_fail_fast
    (getFieldEventType : String → Except String EventType)
    (getFieldValue : String → Except String String)
    (reg : EventType → List onDiscarderFnc) (event : Event) (field : String)
    (ty : EventType) (v : String) (pre : List onDiscarderFnc) (f : onDiscarderFnc)
    (rest : List onDiscarderFnc) (e : String)
    (hty : getFieldEventType field = .ok ty)
    (hv : getFieldValue field = .ok v)
    (hreg : reg ty = pre ++ f :: rest)
    (hpre : ∀ g ∈ pre, g event { field := field, value := v } = .ok ())
    (hf : f event { field := field, value := v } = .error e) :
    OnNewDiscarder true getFieldEventType getFieldValue reg event field =
      (.error e, pre.length + 1) := by
  simp [OnNewDiscarder, hty, hreg,
    runDiscarderFncs_first_error getFieldValue event field v hv pre f rest e hpre hf]

theorem OnNewDiscarder_order_and_fail_fast_witness :
    OnNewDiscarder true demoGetOpenType demoGetValue demoDiscReg eventZero "open.filename" =
      (.error "discarder push failed", 1) :=
  OnNewDiscarder_order_and_fail_fast demoGetOpenType demoGetValue demoDiscReg eventZero
    "open.filename" .fileOpen "/etc/passwd" [] demoDiscFail [demoDiscOk]
    "discarder push failed" rfl rfl rfl (by simp) rfl

/-- The switch body of the dispatcher leaves the stats untouched and never
notifies the consumer when the selected variant decoder fails (or the tag
is unrecognized), and on a successful decode increments exactly the
decoded type's counter once and notifies the registered consumer exactly
once. -/
theorem handleVariant_stats_consumer (c : Codec) (ty : EventType) (bytes : List Nat)
    (p : ProbeState) (hh : p.handlerSet = true) :
    (decodeOk c ty bytes = false →
      (handleVariant c ty bytes p).1.eventsStats = p.eventsStats ∧
      (handleVariant c ty bytes p).2.filter Action.isConsumerEvent = []) ∧
    (decodeOk c ty bytes = true →
      (handleVariant c ty bytes p).1.eventsStats = countEventType p.eventsStats ty 1 ∧
      ((handleVariant c ty bytes p).2.filter Action.isConsumerEvent).length = 1) := by
  cases ty
  case unknown => simp [handleVariant, decodeOk, Action.isConsumerEvent]
  case fileOpen =>
    cases h : c.openD bytes <;>
      simp [handleVariant, decodeOk, h, Except.toBool, finishDispatch, DispatchEvent, hh,
        Action.isConsumerEvent]
  case fileMkdir =>
    cases h : c.mkdirD bytes <;>
      simp [handleVariant, decodeOk, h, Except.toBool, finishDispatch, DispatchEvent, hh,
        Action.isConsumerEvent]
  case fileRmdir =>
    cases h : c.rmdirD bytes <;>
      simp [handleVariant, decodeOk, h, Except.toBool, finishDispatch, DispatchEvent, hh,
        Action.isConsumerEvent]
  case fileUnlink =>
    cases h : c.unlinkD bytes <;>
      simp [handleVariant, decodeOk, h, Except.toBool, finishDispatch, DispatchEvent, hh,
        Action.isConsumerEvent]
  case fileRename =>
    cases h : c.renameD bytes <;>
      simp [handleVariant, decodeOk, h, Except.toBool, finishDispatch, DispatchEvent, hh,
        Action.isConsumerEvent]
  case fileChmod =>
    cases h : c.chmodD bytes <;>
      simp [handleVariant, decodeOk, h, Except.toBool, finishDispatch, DispatchEvent, hh,
        Action.isConsumerEvent]
  case fileChown =>
    cases h : c.chownD bytes <;>
      simp [handleVariant, decodeOk, h, Except.toBool, finishDispatch, DispatchEvent, hh,
        Action.isConsumerEvent]
  case fileUtime =>
    cases h : c.utimesD bytes <;>
      simp [handleVariant, decodeOk, h, Except.toBool, finishDispatch, DispatchEvent, hh,
        Action.isConsumerEvent]
  case fileLink =>
    cases h : c.linkD bytes <;>
      simp [handleVariant, decodeOk, h, Except.toBool, finishDispatch, DispatchEvent, hh,
        Action.isConsumerEvent]
  case fileMount =>
    cases h : c.mountD bytes <;>
      simp [handleVariant, decodeOk, h, Except.toBool, finishDispatch, DispatchEvent, hh,
        Action.isConsumerEvent]
  case fileUmount =>
    cases h : c.umountD bytes
    case error =>
      simp [handleVariant, decodeOk, h, Except.toBool, Action.isConsumerEvent]
    case ok =>
      rename_i u
      cases hd : deleteMount p.mountCache u.mountID <;>
        simp [handleVariant, decodeOk, h, hd, Except.toBool, finishDispatch, DispatchEvent, hh,
          Action.isConsumerEvent]
  case fileSetXAttr =>
    cases h : c.setXAttrD bytes <;>
      simp [handleVariant, decodeOk, h, Except.toBool, finishDispatch, DispatchEvent, hh,
        Action.isConsumerEvent]
  case fileRemoveXAttr =>
    cases h : c.removeXAttrD bytes <;>
      simp [handleVariant, decodeOk, h, Except.toBool, finishDispatch, DispatchEvent, hh,
        Action.isConsumerEvent]

/-- C1: with a registered consumer, `handleEvent` increments the per-type
counter — exactly once, for the decoded type — and notifies the consumer
exactly once, if and only if decoding succeeds: a header decode error, an
unrecognized tag, or a failing variant decoder all leave every per-type
counter untouched and never reach the consumer. -/
theorem handleEvent_counts_and_notifies_iff_decode (c : Codec) (cpu : Nat)
    (data : List Nat) (p : ProbeState) (hh : p.handlerSet = true) :
    (∀ e, c.header data = .error e →
      (handleEvent c cpu data p).1.eventsStats = p.eventsStats ∧
      (handleEvent c cpu data p).2.filter Action.isConsumerEvent = []) ∧
    (∀ read tag, c.header data = .ok (read, tag) →
      decodeOk c (eventTypeOfTag tag) (data.drop read) = false →
      (handleEvent c cpu data p).1.eventsStats = p.eventsStats ∧
      (handleEvent c cpu data p).2.filter Action.isConsumerEvent = []) ∧
    (∀ read tag, c.header data = .ok (read, tag) →
      decodeOk c (eventTypeOfTag tag) (data.drop read) = true →
      (handleEvent c cpu data p).1.eventsStats =
        countEventType p.eventsStats (eventTypeOfTag tag) 1 ∧
      ((handleEvent c cpu data p).2.filter Action.isConsumerEvent).length = 1) := by
  refine ⟨?_, ?_, ?_⟩
  · intro e he
    simp [handleEvent, zeroEvent, he, Action.isConsumerEvent]
  · intro read tag hhdr hdec
    have key := (handleVariant_stats_consumer c (eventTypeOfTag tag) (data.drop read)
      { zeroEvent p with event := { (zeroEvent p).event with type := tag } } hh).1 hdec
    simpa [handleEvent, hhdr] using key
  · intro read tag hhdr hdec
    have key := (handleVariant_stats_consumer c (eventTypeOfTag tag) (data.drop read)
      { zeroEvent p with event := { (zeroEvent p).event with type := tag } } hh).2 hdec
    simpa [handleEvent, hhdr] using key

theorem handleEvent_counts_and_notifies_iff_decode_witness :
    (handleEvent demoCodec 0 [1, 42] demoState).1.eventsStats =
      countEventType demoState.eventsStats .fileOpen 1 ∧
    ((handleEvent demoCodec 0 [1, 42] demoState).2.filter Action.isConsumerEvent).length = 1 ∧
    (handleEvent demoCodec 0 [99, 42] demoState).1.eventsStats = demoState.eventsStats := by
  refine ⟨?_, ?_, ?_⟩
  · exact ((handleEvent_counts_and_notifies_iff_decode demoCodec 0 [1, 42] demoState
      rfl).2.2 1 1 rfl rfl).1
  · exact ((handleEvent_counts_and_notifies_iff_decode demoCodec 0 [1, 42] demoState
      rfl).2.2 1 1 rfl rfl).2
  · exact ((handleEvent_counts_and_notifies_iff_decode demoCodec 0 [99, 42] demoState
      rfl).2.1 1 99 rfl rfl).1

/-- C2: when a mount event decodes successfully, the dispatcher first
resolves the mount point, then the root path — both against the cache as
it stood before this event — and only then inserts the fully resolved
entry: the first three actions of the dispatch are exactly the two
resolution calls followed by the insertion, and the new cache is the old
cache with the resolved entry upserted; when the mount payload fails to
decode, nothing is ever inserted and the cache is unchanged. -/
theorem handleEvent_mount_resolves_then_inserts (c : Codec) (cpu : Nat)
    (data : List Nat) (p : ProbeState) (read tag : Nat)
    (hhdr : c.header data = .ok (read, tag))
    (hty : eventTypeOfTag tag = .fileMount) :
    (∀ m, c.mountD (data.drop read) = .ok m →
      (handleEvent c cpu data p).2.take 3 =
        [.resolveMountPoint m.mountID, .resolveRoot m.mountID,
          .insertedMount (resolveRootOf p.mountCache (resolveMountPointOf p.mountCache m))] ∧
      (handleEvent c cpu data p).1.mountCache =
        insertMount p.mountCache
          (resolveRootOf p.mountCache (resolveMountPointOf p.mountCache m))) ∧
    (∀ e, c.mountD (data.drop read) = .error e →
      (handleEvent c cpu data p).2.filter Action.isInsertedMount = [] ∧
      (handleEvent c cpu data p).1.mountCache = p.mountCache) := by
  constructor
  · intro m hm
    simp [handleEvent, hhdr, hty, handleVariant, hm, finishDispatch, DispatchEvent,
      zeroEvent]
  · intro e hm
    simp [handleEvent, hhdr, hty, handleVariant, hm, Action.isInsertedMount, zeroEvent]

theorem handleEvent_mount_resolves_then_inserts_witness :
    (handleEvent demoCodec 0 [10, 3, 5, 7] demoState).2.take 3 =
      [.resolveMountPoint 3, .resolveRoot 3,
        .insertedMount (resolveRootOf demoState.mountCache
          (resolveMountPointOf demoState.mountCache ⟨3, 5, 7, "/demo", "/"⟩))] ∧
    (handleEvent demoCodec 0 [10, 3, 5, 7] demoState).1.mountCache =
      insertMount demoState.mountCache
        (resolveRootOf demoState.mountCache
          (resolveMountPointOf demoState.mountCache ⟨3, 5, 7, "/demo", "/"⟩)) :=
  (handleEvent_mount_resolves_then_inserts demoCodec 0 [10, 3, 5, 7] demoState 1 10
    rfl rfl).1 ⟨3, 5, 7, "/demo", "/"⟩ rfl

/-- C4: a successfully decoded umount event whose mount id is absent from
the cache still completes the dispatch: the delete failure is logged, the
cache is left unchanged, the umount counter is incremented once, and the
registered consumer is notified exactly once. -/
theorem handleEvent_umount_missing_id_nonfatal (c : Codec) (cpu : Nat)
    (data : List Nat) (p : ProbeState) (read tag : Nat) (u : UmountEvent)
    (hh : p.handlerSet = true)
    (hhdr : c.header data = .ok (read, tag))
    (hty : eventTypeOfTag tag = .fileUmount)
    (hu : c.umountD (data.drop read) = .ok u)
    (hmiss : lookupMount p.mountCache u.mountID = none) :
    (handleEvent c cpu data p).1.mountCache = p.mountCache ∧
    (handleEvent c cpu data p).1.eventsStats =
      countEventType p.eventsStats .fileUmount 1 ∧
    ((handleEvent c cpu data p).2.filter Action.isConsumerEvent).length = 1 ∧
    ((handleEvent c cpu data p).2.filter Action.isLogError).length = 1 := by
  have hdel : deleteMount p.mountCache u.mountID = .error "mount id not found" := by
    simp [deleteMount, hmiss]
  simp [handleEvent, hhdr, hty, handleVariant, hu, hdel, finishDispatch, DispatchEvent,
    zeroEvent, hh, Action.isConsumerEvent, Action.isLogError]

theorem handleEvent_umount_missing_id_nonfatal_witness :
    (handleEvent demoCodec 0 [11, 99] demoState).1.mountCache = demoState.mountCache ∧
    (handleEvent demoCodec 0 [11, 99] demoState).1.eventsStats =
      countEventType demoState.eventsStats .fileUmount 1 ∧
    ((handleEvent demoCodec 0 [11, 99] demoState).2.filter Action.isConsumerEvent).length = 1 ∧
    ((handleEvent demoCodec 0 [11, 99] demoState).2.filter Action.isLogError).length = 1 :=
  handleEvent_umount_missing_id_nonfatal demoCodec 0 [11, 99] demoState 1 11 ⟨99⟩
    rfl rfl rfl rfl rfl

/-- For in-range ordinals the tag/ordinal round trip is the identity. -/
theorem ordinal_eventTypeOfTag (i : Nat) (h : i < numEventTypes) :
    (eventTypeOfTag i).ordinal = i := by
  have h14 : i < 14 := h
  interval_cases i <;> rfl

/-- Zeroing a counter slot makes its read zero (also out of range, where
the read already defaults to zero). -/
theorem getD_set_same (l : List Int) (i : Nat) : (l.set i 0).getD i 0 = 0 := by
  by_cases h : i < l.length
  · simp [List.getD_eq_getElem?_getD, List.getElem?_set_self h]
  · have hlen : (l.set i 0).length ≤ i := by
      simp only [List.length_set]; omega
    simp [List.getD_eq_getElem?_getD, List.getElem?_eq_none hlen]

/-- Zeroing one counter slot leaves reads of every other slot unchanged. -/
theorem getD_set_other (l : List Int) (i j : Nat) (h : i ≠ j) :
    (l.set i 0).getD j 0 = l.getD j 0 := by
  simp [List.getD_eq_getElem?_getD, List.getElem?_set_ne h]

/-- The export loop of `SendStats`, run over distinct in-range ordinals:
every processed nonzero ordinal ends up zeroed, every other slot (and the
ordinal-0 slot, and the lost counter, and the array length) is untouched,
and the emitted metrics are exactly the strictly positive pre-reset values
of the processed nonzero ordinals, in order. -/
theorem sendEventsLoop_spec (is : List Nat) (s : EventsStats)
    (hb : ∀ i ∈ is, i < numEventTypes) (hn : is.Nodup) :
    (∀ j ∈ is, j ≠ 0 → (sendEventsLoop s is).1.perEventType.getD j 0 = 0) ∧
    (∀ j, (j ∉ is ∨ j = 0) →
      (sendEventsLoop s is).1.perEventType.getD j 0 = s.perEventType.getD j 0) ∧
    (sendEventsLoop s is).1.perEventType.length = s.perEventType.length ∧
    (sendEventsLoop s is).1.lost = s.lost ∧
    (sendEventsLoop s is).2 = is.filterMap (fun i =>
      if i = 0 then none
      else if s.perEventType.getD i 0 > 0 then
        some (.metricCount (metricRoot ++ ".events.received") (s.perEventType.getD i 0)
          ["event_type:" ++ (eventTypeOfTag i).toName])
      else none) := by
  induction is generalizing s with
  | nil => simp [sendEventsLoop]
  | cons i rest ih =>
    have hb' : ∀ k ∈ rest, k < numEventTypes := fun k hk => hb k (List.mem_cons_of_mem i hk)
    have hni : i ∉ rest := (List.nodup_cons.mp hn).1
    have hn' : rest.Nodup := (List.nodup_cons.mp hn).2
    by_cases hi : i = 0
    · subst hi
      have key := ih s hb' hn'
      have hloop : sendEventsLoop s (0 :: rest) = sendEventsLoop s rest := by
        simp [sendEventsLoop]
      refine ⟨?_, ?_, ?_, ?_, ?_⟩
      · intro j hj hj0
        rw [hloop]
        refine key.1 j ?_ hj0
        rcases List.mem_cons.mp hj with h | h
        · exact absurd h hj0
        · exact h
      · intro j hj
        rw [hloop]
        refine key.2.1 j ?_
        rcases hj with h | h
        · exact Or.inl (fun hm => h (List.mem_cons_of_mem 0 hm))
        · exact Or.inr h
      · rw [hloop]; exact key.2.2.1
      · rw [hloop]; exact key.2.2.2.1
      · rw [hloop, key.2.2.2.2]; simp
    · have hii : i < numEventTypes := hb i (List.mem_cons_self i rest)
      have hord : (eventTypeOfTag i).ordinal = i := ordinal_eventTypeOfTag i hii
      have key := ih { s with perEventType := s.perEventType.set i 0 } hb' hn'
      have h0 : sendEventsLoop s (i :: rest) =
          (if s.perEventType.getD i 0 > 0 then
            ((sendEventsLoop { s with perEventType := s.perEventType.set i 0 } rest).1,
              Action.metricCount (metricRoot ++ ".events.received")
                  (s.perEventType.getD i 0)
                  ["event_type:" ++ (eventTypeOfTag i).toName] ::
                (sendEventsLoop { s with perEventType := s.perEventType.set i 0 } rest).2)
          else sendEventsLoop { s with perEventType := s.perEventType.set i 0 } rest) := by
        simp only [sendEventsLoop, getAndResetEventCount, hord, hi, ite_false]
      have h1 : (sendEventsLoop s (i :: rest)).1 =
          (sendEventsLoop { s with perEventType := s.perEventType.set i 0 } rest).1 := by
        rw [h0]; split <;> rfl
      have h2 : (sendEventsLoop s (i :: rest)).2 =
          (if s.perEventType.getD i 0 > 0 then
            Action.metricCount (metricRoot ++ ".events.received") (s.perEventType.getD i 0)
              ["event_type:" ++ (eventTypeOfTag i).toName] ::
              (sendEventsLoop { s with perEventType := s.perEventType.set i 0 } rest).2
          else (sendEventsLoop { s with perEventType := s.perEventType.set i 0 } rest).2) := by
        rw [h0]
        by_cases hpos : s.perEventType.getD i 0 > 0
        · rw [if_pos hpos, if_pos hpos]
        · rw [if_neg hpos, if_neg hpos]
      refine ⟨?_, ?_, ?_, ?_, ?_⟩
      · intro j hj hj0
        rcases List.mem_cons.mp hj with h | h
        · subst h
          rw [h1, key.2.1 j (Or.inl hni)]
          exact getD_set_same s.perEventType j
        · rw [h1]
          exact key.1 j h hj0
      · intro j hj
        have hji : j ≠ i := by
          rcases hj with h | h
          · exact fun he => h (he ▸ List.mem_cons_self i rest)
          · exact fun he => hi (he ▸ h)
        have hrest : j ∉ rest ∨ j = 0 := by
          rcases hj with h | h
          · exact Or.inl (fun hm => h (List.mem_cons_of_mem i hm))
          · exact Or.inr h
        rw [h1, key.2.1 j hrest]
        exact getD_set_other s.perEventType i j (fun h => hji h.symm)
      · rw [h1, key.2.2.1]
        exact List.length_set s.perEventType i 0
      · rw [h1]
        exact key.2.2.2.1
      · have hcong : (sendEventsLoop
            { s with perEventType := s.perEventType.set i 0 } rest).2 =
            rest.filterMap (fun k =>
              if k = 0 then none
              else if s.perEventType.getD k 0 > 0 then
                some (.metricCount (metricRoot ++ ".events.received")
                  (s.perEventType.getD k 0)
                  ["event_type:" ++ (eventTypeOfTag k).toName])
              else none) := by
          rw [key.2.2.2.2]
          refine List.filterMap_congr ?_
          intro k hk
          have hki : i ≠ k := fun he => hni (he ▸ hk)
          rw [getD_set_other s.perEventType i k hki]
        rw [h2, hcong]
        by_cases hpos : s.perEventType.getD i 0 > 0
        · rw [if_pos hpos]
          exact (List.filterMap_cons_some (by simp only [if_neg hi, if_pos hpos])).symm
        · rw [if_neg hpos]
          exact (List.filterMap_cons_none (by simp only [if_neg hi, if_neg hpos])).symm

/-- The snapshot loop of `GetStats`, over in-range ordinals: it skips
ordinal 0 and reads every other counter non-destructively, in order. -/
theorem getStatsLoop_spec (s : EventsStats) (is : List Nat)
    (hb : ∀ i ∈ is, i < numEventTypes) :
    getStatsLoop s is = is.filterMap (fun i =>
      if i = 0 then none
      else some ((eventTypeOfTag i).toName, s.perEventType.getD i 0)) := by
  induction is with
  | nil => simp [getStatsLoop]
  | cons i rest ih =>
    have hb' : ∀ k ∈ rest, k < numEventTypes := fun k hk => hb k (List.mem_cons_of_mem i hk)
    by_cases hi : i = 0
    · subst hi
      simp [getStatsLoop, ih hb']
    · have hord : (eventTypeOfTag i).ordinal = i :=
        ordinal_eventTypeOfTag i (hb i (List.mem_cons_self i rest))
      simp only [getStatsLoop, hi, ite_false, getEventCount, hord, ih hb']
      exact (List.filterMap_cons_some (by simp only [if_neg hi])).symm

/-- C10: `SendStats` destructively reads every per-type counter with
ordinal at least 1 (all of them end up zero) but forwards a metric only
for the strictly positive pre-reset values, so zero counters are reset
without emitting anything; the ordinal-0 slot is never reset or exported,
and `GetStats` likewise excludes ordinal 0 from its non-destructive
per-type snapshot. -/
theorem SendStats_GetStats_ordinal_contract (mon : Bool) (s : EventsStats)
    (hlen : s.perEventType.length = numEventTypes) :
    (∀ i, 1 ≤ i → i < numEventTypes →
      (SendStats mon s).1.perEventType.getD i 0 = 0) ∧
    (SendStats mon s).1.perEventType.getD 0 0 = s.perEventType.getD 0 0 ∧
    (SendStats mon s).2 =
      (if mon then [.syscallStatsSent] else []) ++
        .metricCount (metricRoot ++ ".events.lost") s.lost [] ::
        (List.range numEventTypes).filterMap (fun i =>
          if i = 0 then none
          else if s.perEventType.getD i 0 > 0 then
            some (.metricCount (metricRoot ++ ".events.received")
              (s.perEventType.getD i 0) ["event_type:" ++ (eventTypeOfTag i).toName])
          else none) ∧
    (GetStats s).perEventTypeOut =
      (List.range numEventTypes).filterMap (fun i =>
        if i = 0 then none
        else some ((eventTypeOfTag i).toName, s.perEventType.getD i 0)) := by
  have hb : ∀ i ∈ List.range numEventTypes, i < numEventTypes :=
    fun i hi => List.mem_range.mp hi
  have spec := sendEventsLoop_spec (List.range numEventTypes) { s with lost := 0 } hb
    (List.nodup_range numEventTypes)
  have hS : SendStats mon s =
      ((sendEventsLoop { s with lost := 0 } (List.range numEventTypes)).1,
        (if mon then [Action.syscallStatsSent] else []) ++
          Action.metricCount (metricRoot ++ ".events.lost") s.lost [] ::
          (sendEventsLoop { s with lost := 0 } (List.range numEventTypes)).2) := by
    simp only [SendStats, getAndResetLost]
    rw [hlen]
  refine ⟨?_, ?_, ?_, ?_⟩
  · intro i h1 h2
    rw [hS]
    exact spec.1 i (List.mem_range.mpr h2) (by omega)
  · rw [hS]
    exact spec.2.1 0 (Or.inr rfl)
  · rw [hS, spec.2.2.2.2]
  · have hG := getStatsLoop_spec s (List.range numEventTypes) hb
    simp only [GetStats]
    rw [hlen]
    exact hG

theorem SendStats_GetStats_ordinal_contract_witness :
    statsDemo.perEventType.length = numEventTypes ∧
    (SendStats false statsDemo).1.perEventType.getD 1 0 = 0 ∧
    (SendStats false statsDemo).1.perEventType.getD 0 0 = statsDemo.perEventType.getD 0 0 ∧
    (GetStats statsDemo).perEventTypeOut =
      (List.range numEventTypes).filterMap (fun i =>
        if i = 0 then none
        else some ((eventTypeOfTag i).toName, statsDemo.perEventType.getD i 0)) := by
  refine ⟨rfl, ?_, ?_, ?_⟩
  · exact (SendStats_GetStats_ordinal_contract false statsDemo rfl).1 1
      (by decide) (by decide)
  · exact (SendStats_GetStats_ordinal_contract false statsDemo rfl).2.1
  · exact (SendStats_GetStats_ordinal_contract false statsDemo rfl).2.2.2

end probe
